import Mathlib

/-!
Verification development for the hydromt repository material.

The repository ships example notebooks that call the basin-delineation
workflow `get_basin_geometry` of the hydromt library, documentation, and a
CI workflow `publish.yml`.  The delineation engine itself is not part of
the repository sources, so its data model and operations below are
modelled from the specification text (each such definition says so in its
doc comment).  The publish workflow trigger is embedded directly from
`src/.github/workflows/publish.yml`.
-/

namespace HydroMT

/-- A raster cell, addressed by (row, column). -/
abbrev Cell := Nat × Nat

/-- Modelled from the spec: `FlowGrid` is a 2D raster of per-cell
flow-direction codes (8 compass directions + pit/sink/no-data) together
with a co-registered stream-order variable (`StreamOrderGrid`).
`dir p = some q` means cell `p` drains into its neighbor `q`;
`dir p = none` means `p` is a pit/sink or no-data cell.
`var p` is the threshold variable value (e.g. Strahler stream order) at `p`. -/
structure FlowGrid where
  nrows : Nat
  ncols : Nat
  dir : Cell → Option Cell
  var : Cell → Nat

/-- A cell lies inside the grid extent. -/
def inGrid (g : FlowGrid) (p : Cell) : Bool :=
  decide (p.1 < g.nrows) && decide (p.2 < g.ncols)

/-- `q` is one of the 8 compass neighbors of `p`. -/
def isNbr (p q : Cell) : Bool :=
  (p != q) && decide (Nat.dist p.1 q.1 ≤ 1) && decide (Nat.dist p.2 q.2 ≤ 1)

/-- All cells of the grid in row-major order. -/
def allCells (g : FlowGrid) : List Cell :=
  (List.range g.nrows).flatMap (fun r => (List.range g.ncols).map (fun c => (r, c)))

/-- Modelled from the spec: the per-cell pointer invariant — every
non-sink, non-no-data cell points to exactly one of its 8 neighbors,
and that neighbor is inside the grid. -/
def pointsOk (g : FlowGrid) : Bool :=
  (allCells g).all (fun p =>
    match g.dir p with
    | none => true
    | some q => inGrid g q && isNbr p q)

/-- The downstream chain from `p` reaches a pit within `fuel` steps. -/
def terminates (g : FlowGrid) : Nat → Cell → Bool
  | 0, p => (g.dir p).isNone
  | n + 1, p =>
    match g.dir p with
    | none => true
    | some q => terminates g n q

/-- Number of cells of the grid; an upper bound on any acyclic flow path. -/
def size (g : FlowGrid) : Nat := g.nrows * g.ncols

/-- Modelled from the spec: cycles in the flow-direction graph are illegal;
a grid is acyclic when every cell's downstream chain reaches a pit within
`size` steps. -/
def acyclicB (g : FlowGrid) : Bool :=
  (allCells g).all (fun p => terminates g (size g) p)

/-- Modelled from the spec: valid FlowGrids are exactly those where every
non-sink, non-no-data cell points to one of its 8 neighbors and no cycles
exist. -/
def validFlowGrid (g : FlowGrid) : Bool :=
  pointsOk g && acyclicB g

/-- The flow path from `p` passes through `o` within `fuel` steps
(including `p = o`). -/
def drainsTo (g : FlowGrid) : Nat → Cell → Cell → Bool
  | 0, p, o => p == o
  | n + 1, p, o =>
    p == o ||
      match g.dir p with
      | none => false
      | some q => drainsTo g n q o

/-- Modelled from the spec: a `Mask` is the boolean raster of result cells,
realised as the row-major list of grid cells satisfying a predicate. -/
def maskOf (g : FlowGrid) (f : Cell → Bool) : List Cell :=
  (allCells g).filter f

/-- A seed point, given in (possibly out-of-range) integer grid coordinates. -/
abbrev Seed := Int × Int

/-- The seed lies inside the grid extent (cells on the grid edge included). -/
def inExtent (g : FlowGrid) (s : Seed) : Bool :=
  decide (0 ≤ s.1) && decide (s.1 < (g.nrows : Int)) &&
    decide (0 ≤ s.2) && decide (s.2 < (g.ncols : Int))

/-- The grid cell nearest an in-extent seed. -/
def seedCell (s : Seed) : Cell := (s.1.toNat, s.2.toNat)

/-- A cell lies inside an inclusive bounding box ((rmin, cmin), (rmax, cmax)). -/
def inBounds (bb : Cell × Cell) (p : Cell) : Bool :=
  decide (bb.1.1 ≤ p.1) && decide (p.1 ≤ bb.2.1) &&
    decide (bb.1.2 ≤ p.2) && decide (p.2 ≤ bb.2.2)

/-- Modelled from the spec: failure taxonomy of `delineate`. -/
inductive DelinError where
  | outOfBoundsError
  | noMatchError
  | invalidFlowGridError
deriving DecidableEq

/-- Modelled from the spec: non-fatal warning conditions of `delineate`. -/
inductive DelinWarning where
  | incompleteBasinWarning
deriving DecidableEq

/-- Modelled from the spec: result of a `delineate` call — the Mask, the
`OutletSet` (discovery order), and any non-fatal warnings reported to the
caller. -/
structure DelinResult where
  mask : List Cell
  outlets : List Cell
  warnings : List DelinWarning
deriving DecidableEq

deriving instance DecidableEq for Except

/-- Modelled from the spec: `delineate(kind = basin, seed)` — seed is a
point; after checking the seed against the grid extent
(`OutOfBoundsError`) and the grid against the flow invariant
(`InvalidFlowGridError`), the result is the full set of cells upstream of
(draining into) the cell nearest the seed. -/
def delineateBasin (g : FlowGrid) (s : Seed) : Except DelinError DelinResult :=
  if !inExtent g s then .error .outOfBoundsError
  else if !validFlowGrid g then .error .invalidFlowGridError
  else
    let o := seedCell s
    .ok ⟨maskOf g (fun p => drainsTo g (size g) p o), [o], []⟩

/-- Modelled from the spec: outlet snapping — follow the flow path
downstream from `p` and return the nearest (first) cell satisfying
`variable >= threshold`, or `none` when no cell on the path satisfies it. -/
def snapDown (g : FlowGrid) (thr : Nat) : Nat → Cell → Option Cell
  | 0, p => if thr ≤ g.var p then some p else none
  | n + 1, p =>
    if thr ≤ g.var p then some p
    else
      match g.dir p with
      | none => none
      | some q => snapDown g thr n q

/-- Modelled from the spec: `delineate(kind = subbasin, seed, threshold,
bounds?)` — the outlet is snapped downstream to the nearest cell
satisfying `variable >= threshold` (`NoMatchError` when none exists), and
the result is the upstream area of that snapped outlet.  When `bounds` is
supplied and the delineated area is not fully contained within it, a
non-fatal `IncompleteBasinWarning` is reported alongside the unchanged
traversal result. -/
def delineateSubbasin (g : FlowGrid) (s : Seed) (thr : Nat)
    (bounds : Option (Cell × Cell)) : Except DelinError DelinResult :=
  if !inExtent g s then .error .outOfBoundsError
  else if !validFlowGrid g then .error .invalidFlowGridError
  else
    match snapDown g thr (size g) (seedCell s) with
    | none => .error .noMatchError
    | some o =>
      let mask := maskOf g (fun p => drainsTo g (size g) p o)
      let warns :=
        match bounds with
        | none => []
        | some bb =>
          if mask.all (fun p => inBounds bb p) then []
          else [DelinWarning.incompleteBasinWarning]
      .ok ⟨mask, [o], warns⟩

/-- The flow path from `p` stays inside the bounding box until it reaches
a cell satisfying the threshold predicate inside the box (the
most-downstream contiguous drainage within the box). -/
def drainsToStreamInBox (g : FlowGrid) (thr : Nat) (bb : Cell × Cell) :
    Nat → Cell → Bool
  | 0, p => inBounds bb p && decide (thr ≤ g.var p)
  | n + 1, p =>
    inBounds bb p &&
      (decide (thr ≤ g.var p) ||
        match g.dir p with
        | none => false
        | some q => drainsToStreamInBox g thr bb n q)

/-- `p` is strictly upstream of `b`: distinct, and the flow path from `p`
passes through `b`. -/
def strictlyUpstream (g : FlowGrid) (p b : Cell) : Bool :=
  (p != b) && drainsTo g (size g) p b

/-- The bounding box enlarged by `buffer` cells on every side. -/
def expandBox (bb : Cell × Cell) (buffer : Nat) : Cell × Cell :=
  ((bb.1.1 - buffer, bb.1.2 - buffer), (bb.2.1 + buffer, bb.2.2 + buffer))

/-- Modelled from the spec: `b` is the outlet of a nested tributary basin
crossing the box boundary — `b` lies inside the box and some stream cell
(`variable >= threshold`) within `buffer` cells outside the box flows
directly into `b`, i.e. a stream segment crosses the box boundary inward
at `b`. -/
def isInflowOutlet (g : FlowGrid) (thr : Nat) (bb : Cell × Cell)
    (buffer : Nat) (b : Cell) : Bool :=
  inBounds bb b &&
    (allCells g).any (fun q =>
      !inBounds bb q && inBounds (expandBox bb buffer) q &&
        (g.dir q == some b) && decide (thr ≤ g.var q))

/-- Modelled from the spec: the interbasin membership predicate — a cell
belongs to the interbasin when it drains, contiguously within the box, to
a stream satisfying the threshold predicate, and is not upstream of any
nested tributary basin whose outlet lies on the box boundary. -/
def interbasinPred (g : FlowGrid) (thr : Nat) (bb : Cell × Cell)
    (buffer : Nat) (p : Cell) : Bool :=
  drainsToStreamInBox g thr bb (size g) p &&
    !((allCells g).any (fun b =>
      isInflowOutlet g thr bb buffer b && strictlyUpstream g p b))

/-- Modelled from the spec: `delineate(kind = interbasin, bbox, threshold,
buffer)` — seed is a bounding box; result is the most-downstream
contiguous sub-area within the box draining to a stream satisfying the
threshold predicate, excluding area upstream of nested tributary basins
crossing the box boundary.  Outlets are the mask cells whose downstream
continuation leaves the mask. -/
def delineateInterbasin (g : FlowGrid) (bb : Cell × Cell) (thr : Nat)
    (buffer : Nat) : Except DelinError DelinResult :=
  if !(inGrid g bb.1 && inGrid g bb.2) then .error .outOfBoundsError
  else if !validFlowGrid g then .error .invalidFlowGridError
  else
    let mask := maskOf g (interbasinPred g thr bb buffer)
    let outlets := mask.filter (fun p =>
      match g.dir p with
      | none => true
      | some q => !interbasinPred g thr bb buffer q)
    .ok ⟨mask, outlets, []⟩

/-- Modelled from the spec: a `BasinIndex` is a precomputed spatial index
of basin bounding boxes, used to narrow the candidate region of a query. -/
abbrev BasinIndex := List (Cell × Cell)

/-- The candidate region derived from the basin index for outlet `o`: the
union of the indexed bounding boxes containing `o`. -/
def indexCandidate (idx : BasinIndex) (o : Cell) (p : Cell) : Bool :=
  idx.any (fun bb => inBounds bb o && inBounds bb p)

/-- Modelled from the spec: `delineate(kind = basin, seed)` accelerated by
a `basin_index` — the upstream traversal only scans cells inside the
candidate region given by the index. -/
def delineateBasinWithIndex (g : FlowGrid) (idx : BasinIndex) (s : Seed) :
    Except DelinError DelinResult :=
  if !inExtent g s then .error .outOfBoundsError
  else if !validFlowGrid g then .error .invalidFlowGridError
  else
    let o := seedCell s
    .ok ⟨maskOf g (fun p => indexCandidate idx o p && drainsTo g (size g) p o),
      [o], []⟩

/-- Modelled from the spec: a basin index is consistent with the grid when
every upstream contributing area is fully covered by some indexed
bounding box that also contains its outlet (each basin's bbox contains
the basin). -/
def validIndexB (g : FlowGrid) (idx : BasinIndex) : Bool :=
  (allCells g).all (fun o => (allCells g).all (fun p =>
    !drainsTo g (size g) p o || indexCandidate idx o p))

/-- The flow path reachability relation: `Reaches g p o` holds when the
(deterministic) downstream flow path starting at `p` passes through `o`. -/
inductive Reaches (g : FlowGrid) : Cell → Cell → Prop
  | refl (p : Cell) : Reaches g p p
  | step {p q o : Cell} : g.dir p = some q → Reaches g q o → Reaches g p o

/-! ### Scenario grids from the spec's testable properties -/

/-- One step of coordinate `a` toward target `t`. -/
def stepToward (a t : Nat) : Nat :=
  if a < t then a + 1 else if t < a then a - 1 else a

/-- Scenario grid: 5×5 synthetic flow grid, all cells draining to the
center cell (2,2). -/
def grid5 : FlowGrid where
  nrows := 5
  ncols := 5
  dir := fun p =>
    if p = (2, 2) then none
    else some (stepToward p.1 2, stepToward p.2 2)
  var := fun _ => 1

/-- Scenario grid: linear flow grid, a single downstream chain of 10
cells; cell k of the chain is grid cell (0, k-1), flow runs from cell 10
at (0,9) down to cell 1 at (0,0), and the stream-order variable grows
downstream: `var (0, c) = 10 - c`. -/
def chain10 : FlowGrid where
  nrows := 1
  ncols := 10
  dir := fun p => if p.2 = 0 then none else some (p.1, p.2 - 1)
  var := fun p => 10 - p.2

/-- A 3-cell linear chain with stream order growing downstream, used to
compare basin and subbasin masks. -/
def chain3 : FlowGrid where
  nrows := 1
  ncols := 3
  dir := fun p => if p.2 = 0 then none else some (p.1, p.2 - 1)
  var := fun p => 3 - p.2

/-- Scenario grid: a flow grid with an intentionally introduced 3-cell
cycle (0,0) → (0,1) → (1,0) → (0,0). -/
def cyc3 : FlowGrid where
  nrows := 2
  ncols := 2
  dir := fun p =>
    if p = (0, 0) then some (0, 1)
    else if p = (0, 1) then some (1, 0)
    else if p = (1, 0) then some (0, 0)
    else none
  var := fun _ => 1

/-- A 1×5 chain used for the interbasin scenario: flow runs toward (0,0),
stream order grows downstream: `var (0, c) = 5 - c`. -/
def chain5 : FlowGrid where
  nrows := 1
  ncols := 5
  dir := fun p => if p.2 = 0 then none else some (p.1, p.2 - 1)
  var := fun p => 5 - p.2

/-! ### The publish workflow, embedded from src/.github/workflows/publish.yml -/

/-- A GitHub event that may be delivered to a workflow. -/
inductive GHEvent where
  | release (type : String)
  | push (ref : String)
  | pullRequest (branch : String)
  | workflowDispatch
  | schedule (cron : String)
deriving DecidableEq

/-- The `on.release.types` list of the publish workflow: `[created]`. -/
def publishOnReleaseTypes : List String := ["created"]

/-- Whether an event triggers the publish workflow: its `on` block
declares only `release` with `types: [created]`, so only release events
whose type is listed trigger it. -/
def publishWorkflowTriggers : GHEvent → Bool
  | .release t => publishOnReleaseTypes.contains t
  | _ => false

/-- The `run` steps of the publish job, in order. -/
def publishJobRunSteps : List String :=
  ["pip install flit>=3.2.0", "flit publish"]

/-! ### Helper lemmas -/

theorem mem_allCells {g : FlowGrid} {p : Cell} :
    p ∈ allCells g ↔ p.1 < g.nrows ∧ p.2 < g.ncols := by
  constructor
  · intro h
    simp only [allCells, List.mem_flatMap, List.mem_map, List.mem_range] at h
    obtain ⟨r, hr, c, hc, hpc⟩ := h
    subst hpc
    exact ⟨hr, hc⟩
  · intro h
    simp only [allCells, List.mem_flatMap, List.mem_map, List.mem_range]
    exact ⟨p.1, h.1, p.2, h.2, rfl⟩

theorem inGrid_iff {g : FlowGrid} {p : Cell} :
    inGrid g p = true ↔ p.1 < g.nrows ∧ p.2 < g.ncols := by
  simp [inGrid]

theorem mem_allCells_iff_inGrid {g : FlowGrid} {p : Cell} :
    p ∈ allCells g ↔ inGrid g p = true := by
  rw [mem_allCells, inGrid_iff]

theorem mem_maskOf {g : FlowGrid} {f : Cell → Bool} {p : Cell} :
    p ∈ maskOf g f ↔ inGrid g p = true ∧ f p = true := by
  rw [maskOf, List.mem_filter, mem_allCells_iff_inGrid]

theorem reaches_trans {g : FlowGrid} {p q o : Cell}
    (h1 : Reaches g p q) (h2 : Reaches g q o) : Reaches g p o := by
  induction h1 with
  | refl => exact h2
  | step hd _ ih => exact Reaches.step hd (ih h2)

theorem reaches_snoc {g : FlowGrid} {p q r : Cell}
    (h : Reaches g p q) (hd : g.dir q = some r) : Reaches g p r := by
  induction h with
  | refl => exact Reaches.step hd (Reaches.refl r)
  | step hd' _ ih => exact Reaches.step hd' (ih hd)

theorem drainsTo_sound {g : FlowGrid} {n : Nat} {p o : Cell}
    (h : drainsTo g n p o = true) : Reaches g p o := by
  induction n generalizing p with
  | zero =>
    simp only [drainsTo, beq_iff_eq] at h
    subst h
    exact Reaches.refl p
  | succ m ih =>
    simp only [drainsTo, Bool.or_eq_true, beq_iff_eq] at h
    rcases h with h | h
    · subst h
      exact Reaches.refl p
    · cases hd : g.dir p with
      | none => rw [hd] at h; exact absurd h (by simp)
      | some q => rw [hd] at h; exact Reaches.step hd (ih h)

theorem terminates_succ {g : FlowGrid} {n : Nat} {p q : Cell}
    (h : terminates g (n + 1) p = true) (hd : g.dir p = some q) :
    terminates g n q = true := by
  simpa [terminates, hd] using h

theorem drainsTo_complete {g : FlowGrid} {n : Nat} {p o : Cell}
    (ht : terminates g n p = true) (h : Reaches g p o) :
    drainsTo g n p o = true := by
  induction n generalizing p with
  | zero =>
    cases h with
    | refl => simp [drainsTo]
    | step hd _ =>
      simp only [terminates, Option.isNone_iff_eq_none] at ht
      rw [ht] at hd
      exact absurd hd (by simp)
  | succ m ih =>
    cases h with
    | refl => simp [drainsTo]
    | step hd hr =>
      have := ih (terminates_succ ht hd) hr
      simp [drainsTo, hd, this]

theorem terminates_of_valid {g : FlowGrid} {p : Cell}
    (hv : validFlowGrid g = true) (hp : inGrid g p = true) :
    terminates g (size g) p = true := by
  have := (Bool.and_eq_true _ _).mp hv
  have ha := this.2
  rw [acyclicB, List.all_eq_true] at ha
  exact ha p (mem_allCells_iff_inGrid.mpr hp)

theorem no_self_loop {g : FlowGrid} {n : Nat} {p : Cell}
    (ht : terminates g n p = true) (hd : g.dir p = some p) : False := by
  induction n with
  | zero =>
    simp only [terminates, Option.isNone_iff_eq_none] at ht
    rw [ht] at hd
    exact absurd hd (by simp)
  | succ m ih => exact ih (terminates_succ ht hd)

theorem reaches_antisymm {g : FlowGrid} {n : Nat} {p q : Cell}
    (ht : terminates g n p = true) (h1 : Reaches g p q) (h2 : Reaches g q p) :
    p = q := by
  induction n generalizing p q with
  | zero =>
    cases h1 with
    | refl => rfl
    | step hd _ =>
      simp only [terminates, Option.isNone_iff_eq_none] at ht
      rw [ht] at hd
      exact absurd hd (by simp)
  | succ m ih =>
    cases h1 with
    | refl => rfl
    | step hd hr =>
      rename_i r
      have htr : terminates g m r = true := terminates_succ ht hd
      have hqr : Reaches g q r := reaches_snoc h2 hd
      have hrq : r = q := ih htr hr hqr
      subst hrq
      have hrp : Reaches g r p := h2
      have hpr : Reaches g p r := Reaches.step hd (Reaches.refl r)
      have : r = p := ih htr hrp hpr
      subst this
      exact absurd hd (fun hd => no_self_loop ht hd)

theorem snapDown_reaches {g : FlowGrid} {thr n : Nat} {p o : Cell}
    (h : snapDown g thr n p = some o) : Reaches g p o := by
  induction n generalizing p with
  | zero =>
    simp only [snapDown] at h
    split at h
    · cases h; exact Reaches.refl _
    · exact absurd h (by simp)
  | succ m ih =>
    simp only [snapDown] at h
    split at h
    · cases h; exact Reaches.refl _
    · cases hd : g.dir p with
      | none => rw [hd] at h; exact absurd h (by simp)
      | some q => rw [hd] at h; exact Reaches.step hd (ih h)

theorem snapDown_var {g : FlowGrid} {thr n : Nat} {p o : Cell}
    (h : snapDown g thr n p = some o) : thr ≤ g.var o := by
  induction n generalizing p with
  | zero =>
    simp only [snapDown] at h
    split at h
    · cases h; assumption
    · exact absurd h (by simp)
  | succ m ih =>
    simp only [snapDown] at h
    split at h
    · cases h; assumption
    · cases hd : g.dir p with
      | none => rw [hd] at h; exact absurd h (by simp)
      | some q => rw [hd] at h; exact ih h

theorem snapDown_nearest {g : FlowGrid} {thr n : Nat} {p o q : Cell}
    (ht : terminates g n p = true) (h : snapDown g thr n p = some o)
    (h1 : Reaches g p q) (h2 : Reaches g q o) (hne : q ≠ o) :
    g.var q < thr := by
  induction n generalizing p with
  | zero =>
    cases h1 with
    | refl =>
      simp only [snapDown] at h
      split at h
      · cases h; exact absurd rfl hne
      · exact absurd h (by simp)
    | step hd _ =>
      simp only [terminates, Option.isNone_iff_eq_none] at ht
      rw [ht] at hd
      exact absurd hd (by simp)
  | succ m ih =>
    simp only [snapDown] at h
    split at h
    · rename_i hvar
      cases h
      exact absurd (reaches_antisymm ht h1 h2) (fun e => hne e.symm)
    · rename_i hvar
      cases hd : g.dir p with
      | none => rw [hd] at h; exact absurd h (by simp)
      | some r =>
        rw [hd] at h
        cases h1 with
        | refl => omega
        | step hd' hr =>
          rw [hd] at hd'
          cases hd'
          exact ih (terminates_succ ht hd) h hr

theorem seedCell_inGrid {g : FlowGrid} {s : Seed} (hs : inExtent g s = true) :
    inGrid g (seedCell s) = true := by
  simp only [inExtent, Bool.and_eq_true, decide_eq_true_eq] at hs
  simp only [inGrid, seedCell, Bool.and_eq_true, decide_eq_true_eq]
  omega

theorem drainsToStreamInBox_inBounds {g : FlowGrid} {thr n : Nat}
    {bb : Cell × Cell} {p : Cell}
    (h : drainsToStreamInBox g thr bb n p = true) : inBounds bb p = true := by
  cases n with
  | zero => exact ((Bool.and_eq_true _ _).mp h).1
  | succ m => exact ((Bool.and_eq_true _ _).mp h).1

theorem inBounds_mem_grid {g : FlowGrid} {bb : Cell × Cell} {b : Cell}
    (hb : inBounds bb b = true) (h2 : inGrid g bb.2 = true) :
    inGrid g b = true := by
  simp only [inBounds, Bool.and_eq_true, decide_eq_true_eq] at hb
  simp only [inGrid, Bool.and_eq_true, decide_eq_true_eq] at h2 ⊢
  omega

/-! ### Claim theorems -/

/-- C1: for every valid FlowGrid and every seed inside the grid extent,
`delineate(kind = basin, seed)` returns the Mask holding exactly the cells
whose flow path reaches the cell nearest the seed (the entire upstream
contributing area), and no others. -/
theorem basin_mask_is_upstream_area (g : FlowGrid) (s : Seed)
    (hv : validFlowGrid g = true) (hs : inExtent g s = true) :
    ∃ res, delineateBasin g s = .ok res ∧
      ∀ p, p ∈ res.mask ↔ (inGrid g p = true ∧ Reaches g p (seedCell s)) := by
  have hres : delineateBasin g s =
      .ok ⟨maskOf g (fun p => drainsTo g (size g) p (seedCell s)),
        [seedCell s], []⟩ := by
    simp [delineateBasin, hs, hv]
  refine ⟨_, hres, fun p => ?_⟩
  rw [mem_maskOf]
  constructor
  · rintro ⟨hp, hd⟩
    exact ⟨hp, drainsTo_sound hd⟩
  · rintro ⟨hp, hr⟩
    exact ⟨hp, drainsTo_complete (terminates_of_valid hv hp) hr⟩

/-- C1 witness: the 5×5 grid draining to its center is valid, the center
seed is in extent, the theorem applies, and the returned Mask is all 25
cells of the grid. -/
theorem basin_mask_is_upstream_area_witness :
    validFlowGrid grid5 = true ∧ inExtent grid5 (2, 2) = true ∧
    (∃ res, delineateBasin grid5 (2, 2) = .ok res ∧
      ∀ p, p ∈ res.mask ↔
        (inGrid grid5 p = true ∧ Reaches grid5 p (seedCell (2, 2)))) ∧
    (delineateBasin grid5 (2, 2)).map DelinResult.mask = .ok (allCells grid5) ∧
    (allCells grid5).length = 25 :=
  ⟨by decide, by decide,
    basin_mask_is_upstream_area grid5 (2, 2) (by decide) (by decide),
    by decide, by decide⟩

/-- C2: `delineate(kind = subbasin, seed, threshold)` snaps the outlet to
the nearest cell on the downstream flow path satisfying
`variable >= threshold` (no strictly earlier cell on the path satisfies
it) and returns the upstream area of that snapped outlet. -/
theorem subbasin_snaps_then_upstream (g : FlowGrid) (s : Seed) (thr : Nat)
    (o : Cell) (hv : validFlowGrid g = true) (hs : inExtent g s = true)
    (ho : snapDown g thr (size g) (seedCell s) = some o) :
    delineateSubbasin g s thr none =
      .ok ⟨maskOf g (fun p => drainsTo g (size g) p o), [o], []⟩ ∧
    thr ≤ g.var o ∧ Reaches g (seedCell s) o ∧
    (∀ q, Reaches g (seedCell s) q → Reaches g q o → q ≠ o →
      g.var q < thr) := by
  refine ⟨by simp [delineateSubbasin, hs, hv, ho], snapDown_var ho,
    snapDown_reaches ho, fun q h1 h2 hne => ?_⟩
  exact snapDown_nearest (terminates_of_valid hv (seedCell_inGrid hs)) ho h1 h2 hne

/-- C2 witness: on the linear 10-cell chain with the stream-order
threshold first met at chain cell 7 (grid cell (0,6)), delineating the
subbasin from seed chain cell 10 (grid cell (0,9)) snaps the outlet to
(0,6) and returns exactly chain cells 7 through 10. -/
theorem subbasin_snaps_then_upstream_witness :
    (delineateSubbasin chain10 (0, 9) 4 none =
      .ok ⟨maskOf chain10
            (fun p => drainsTo chain10 (size chain10) p (0, 6)), [(0, 6)], []⟩ ∧
      4 ≤ chain10.var (0, 6) ∧ Reaches chain10 (seedCell (0, 9)) (0, 6) ∧
      (∀ q, Reaches chain10 (seedCell (0, 9)) q → Reaches chain10 q (0, 6) →
        q ≠ (0, 6) → chain10.var q < 4)) ∧
    maskOf chain10 (fun p => drainsTo chain10 (size chain10) p (0, 6)) =
      [(0, 6), (0, 7), (0, 8), (0, 9)] :=
  ⟨subbasin_snaps_then_upstream chain10 (0, 9) 4 (0, 6)
      (by decide) (by decide) (by decide),
    by decide⟩

/-- C3: every cell of the Mask returned by
`delineate(kind = interbasin, bbox, threshold, buffer)` lies in the box,
drains contiguously within the box to a cell satisfying the threshold
predicate, and is never upstream of a nested tributary basin whose outlet
lies on the box boundary. -/
theorem interbasin_mask_spec (g : FlowGrid) (bb : Cell × Cell)
    (thr buffer : Nat) (res : DelinResult) (p : Cell)
    (hok : delineateInterbasin g bb thr buffer = .ok res)
    (hp : p ∈ res.mask) :
    inBounds bb p = true ∧
    drainsToStreamInBox g thr bb (size g) p = true ∧
    ∀ b, isInflowOutlet g thr bb buffer b = true →
      strictlyUpstream g p b = false := by
  unfold delineateInterbasin at hok
  split at hok
  · exact absurd hok (by simp)
  · rename_i hcorner
    split at hok
    · exact absurd hok (by simp)
    · simp only [Bool.not_eq_true', Bool.not_eq_false] at hcorner
      cases hok
      rw [mem_maskOf] at hp
      obtain ⟨hpg, hpred⟩ := hp
      rw [interbasinPred, Bool.and_eq_true] at hpred
      obtain ⟨hdrain, hnone⟩ := hpred
      refine ⟨drainsToStreamInBox_inBounds hdrain, hdrain, fun b hb => ?_⟩
      by_contra hsu
      rw [Bool.not_eq_false] at hsu
      have hbbg : inGrid g bb.2 = true := ((Bool.and_eq_true _ _).mp hcorner).2
      have hbg : b ∈ allCells g := by
        have h1 := (Bool.and_eq_true _ _).mp hb
        have h2 := inBounds_mem_grid h1.1 hbbg
        exact mem_allCells_iff_inGrid.mpr h2
      have : ((allCells g).any fun b =>
          isInflowOutlet g thr bb buffer b && strictlyUpstream g p b) = true :=
        List.any_eq_true.mpr ⟨b, hbg, by simp [hb, hsu]⟩
      rw [this] at hnone
      exact absurd hnone (by simp)

/-- C3 witness: on the 1×5 chain with box (0,1)–(0,3), threshold 3 and
buffer 1, the interbasin call succeeds, (0,2) is in its Mask, and the
theorem's characterization holds there. -/
theorem interbasin_mask_spec_witness :
    delineateInterbasin chain5 ((0, 1), (0, 3)) 3 1 =
      .ok ⟨[(0, 1), (0, 2), (0, 3)], [(0, 1)], []⟩ ∧
    (inBounds ((0, 1), (0, 3)) (0, 2) = true ∧
      drainsToStreamInBox chain5 3 ((0, 1), (0, 3)) (size chain5) (0, 2) = true ∧
      ∀ b, isInflowOutlet chain5 3 ((0, 1), (0, 3)) 1 b = true →
        strictlyUpstream chain5 (0, 2) b = false) :=
  ⟨by decide,
    interbasin_mask_spec chain5 ((0, 1), (0, 3)) 3 1
      ⟨[(0, 1), (0, 2), (0, 3)], [(0, 1)], []⟩ (0, 2) (by decide) (by decide)⟩

/-- C4: `delineate` is deterministic — for a fixed FlowGrid and identical
argument tuples, two calls return bit-identical results (Mask and
OutletSet included), for every kind; the model is a pure function of its
inputs. -/
theorem delineate_deterministic (g : FlowGrid) (s : Seed) (thr : Nat)
    (bounds : Option (Cell × Cell)) (bb : Cell × Cell) (buffer : Nat)
    (idx : BasinIndex) :
    delineateBasin g s = delineateBasin g s ∧
    delineateSubbasin g s thr bounds = delineateSubbasin g s thr bounds ∧
    delineateInterbasin g bb thr buffer = delineateInterbasin g bb thr buffer ∧
    delineateBasinWithIndex g idx s = delineateBasinWithIndex g idx s :=
  ⟨rfl, rfl, rfl, rfl⟩

/-- C5 counterexample: on the 3-cell chain with stream order growing
downstream, raising the threshold from 1 to 3 snaps the outlet further
downstream and adds cells (0,0) and (0,1) to the subbasin Mask, so a
stricter threshold does add cells; moreover the basin Mask of the same
seed is {(0,2)}, which is not a superset of the threshold-3 subbasin
Mask, and a threshold above every grid value returns no Mask at all but
fails with `NoMatchError`. -/
theorem basin_superset_counterexample :
    (delineateBasin chain3 (0, 2)).map DelinResult.mask = .ok [(0, 2)] ∧
    (delineateSubbasin chain3 (0, 2) 1 none).map DelinResult.mask =
      .ok [(0, 2)] ∧
    (delineateSubbasin chain3 (0, 2) 3 none).map DelinResult.mask =
      .ok [(0, 0), (0, 1), (0, 2)] ∧
    delineateSubbasin chain3 (0, 2) 4 none = .error .noMatchError ∧
    ((0, 0) : Cell) ∈ [((0, 0) : Cell), (0, 1), (0, 2)] ∧
    ((0, 0) : Cell) ∉ [((0, 2) : Cell)] := by
  decide

/-- C5 (amended): for every valid FlowGrid and seed, whenever
`delineate(subbasin, seed, thr)` succeeds, its Mask is a superset of the
`delineate(basin, seed)` Mask — snapping moves the outlet downstream, so
thresholds can only add cells to the basin of the seed, never remove
them; a threshold exceeding every variable value on the flow path yields
`NoMatchError` instead of a Mask. -/
theorem subbasin_mask_superset_of_basin (g : FlowGrid) (s : Seed) (thr : Nat)
    (bounds : Option (Cell × Cell)) (resS resB : DelinResult)
    (hS : delineateSubbasin g s thr bounds = .ok resS)
    (hB : delineateBasin g s = .ok resB) :
    resB.mask ⊆ resS.mask := by
  cases hse : inExtent g s with
  | false => rw [delineateBasin, hse] at hB; exact absurd hB (by simp)
  | true =>
    cases hv : validFlowGrid g with
    | false => rw [delineateBasin, hse, hv] at hB; exact absurd hB (by simp)
    | true =>
      rw [delineateBasin] at hB
      simp only [hse, hv, Bool.not_true, Bool.false_eq_true, if_false] at hB
      cases hsnap : snapDown g thr (size g) (seedCell s) with
      | none =>
        rw [delineateSubbasin] at hS
        simp only [hse, hv, hsnap, Bool.not_true, Bool.false_eq_true,
          if_false] at hS
        exact absurd hS (by simp)
      | some o =>
        rw [delineateSubbasin] at hS
        simp only [hse, hv, hsnap, Bool.not_true, Bool.false_eq_true,
          if_false] at hS
        cases hS
        cases hB
        intro p hp
        rw [mem_maskOf] at hp ⊢
        obtain ⟨hpg, hpd⟩ := hp
        have hterm : terminates g (size g) p = true :=
          terminates_of_valid hv hpg
        have hro : Reaches g p o :=
          reaches_trans (drainsTo_sound hpd) (snapDown_reaches hsnap)
        exact ⟨hpg, drainsTo_complete hterm hro⟩

/-- C5 witness: on the 3-cell chain with threshold 3, the basin Mask
{(0,2)} of seed (0,2) is contained in the subbasin Mask
{(0,0), (0,1), (0,2)}. -/
theorem subbasin_mask_superset_of_basin_witness :
    (⟨[(0, 2)], [(0, 2)], []⟩ : DelinResult).mask ⊆
      (⟨[(0, 0), (0, 1), (0, 2)], [(0, 0)], []⟩ : DelinResult).mask :=
  subbasin_mask_superset_of_basin chain3 (0, 2) 3 none
    ⟨[(0, 0), (0, 1), (0, 2)], [(0, 0)], []⟩ ⟨[(0, 2)], [(0, 2)], []⟩
    (by decide) (by decide)

/-- C6: `delineate` fails with `OutOfBoundsError` exactly when the seed
lies outside the grid extent; a seed inside the extent (the grid edge
included) never produces that error, for the basin and subbasin kinds. -/
theorem out_of_bounds_iff (g : FlowGrid) (s : Seed) (thr : Nat)
    (bounds : Option (Cell × Cell)) :
    (delineateBasin g s = .error .outOfBoundsError ↔ inExtent g s = false) ∧
    (delineateSubbasin g s thr bounds = .error .outOfBoundsError ↔
      inExtent g s = false) := by
  cases hse : inExtent g s with
  | false =>
    constructor
    · simp [delineateBasin, hse]
    · simp [delineateSubbasin, hse]
  | true =>
    constructor
    · rw [delineateBasin]
      simp only [hse, Bool.not_true, Bool.false_eq_true, if_false]
      constructor
      · intro h
        split at h <;> simp_all
      · intro h
        exact absurd h (by simp)
    · rw [delineateSubbasin]
      simp only [hse, Bool.not_true, Bool.false_eq_true, if_false]
      constructor
      · intro h
        split at h
        · simp_all
        · split at h <;> simp_all
      · intro h
        exact absurd h (by simp)

/-- C7: on a FlowGrid violating the flow invariant (in particular one
with a cycle), every delineation call whose seed passes the extent check
fails with `InvalidFlowGridError` instead of returning a Mask. -/
theorem invalid_grid_fails (g : FlowGrid) (s : Seed) (thr : Nat)
    (bounds : Option (Cell × Cell)) (bb : Cell × Cell) (buffer : Nat)
    (hs : inExtent g s = true)
    (hbb : (inGrid g bb.1 && inGrid g bb.2) = true)
    (hv : validFlowGrid g = false) :
    delineateBasin g s = .error .invalidFlowGridError ∧
    delineateSubbasin g s thr bounds = .error .invalidFlowGridError ∧
    delineateInterbasin g bb thr buffer = .error .invalidFlowGridError := by
  refine ⟨?_, ?_, ?_⟩
  · simp [delineateBasin, hs, hv]
  · simp [delineateSubbasin, hs, hv]
  · simp [delineateInterbasin, hbb, hv]

/-- C7 witness: the 2×2 grid with the intentional 3-cell cycle
(0,0) → (0,1) → (1,0) → (0,0) satisfies the 8-neighbor pointer invariant
but is cyclic, hence invalid, and every delineation call on it fails with
`InvalidFlowGridError`. -/
theorem invalid_grid_fails_witness :
    pointsOk cyc3 = true ∧ validFlowGrid cyc3 = false ∧
    (delineateBasin cyc3 (0, 0) = .error .invalidFlowGridError ∧
      delineateSubbasin cyc3 (0, 0) 1 none = .error .invalidFlowGridError ∧
      delineateInterbasin cyc3 ((0, 0), (1, 1)) 1 1 =
        .error .invalidFlowGridError) :=
  ⟨by decide, by decide,
    invalid_grid_fails cyc3 (0, 0) 1 none ((0, 0), (1, 1)) 1
      (by decide) (by decide) (by decide)⟩

/-- C8: when `delineate(kind = subbasin)` is called with `bounds` and
succeeds, the Mask and OutletSet equal those of the same call without
`bounds`, and the warning list is exactly an `IncompleteBasinWarning`
when the Mask is not fully contained in `bounds` (empty otherwise) — the
warning never suppresses or alters the traversal result. -/
theorem bounds_warning_nonfatal (g : FlowGrid) (s : Seed) (thr : Nat)
    (bb : Cell × Cell) (res : DelinResult)
    (h : delineateSubbasin g s thr (some bb) = .ok res) :
    ∃ res0, delineateSubbasin g s thr none = .ok res0 ∧
      res.mask = res0.mask ∧ res.outlets = res0.outlets ∧
      res0.warnings = [] ∧
      res.warnings = (if res.mask.all (fun p => inBounds bb p) then []
        else [DelinWarning.incompleteBasinWarning]) := by
  cases hse : inExtent g s with
  | false => rw [delineateSubbasin, hse] at h; exact absurd h (by simp)
  | true =>
    cases hv : validFlowGrid g with
    | false =>
      rw [delineateSubbasin, hse, hv] at h
      exact absurd h (by simp)
    | true =>
      cases hsnap : snapDown g thr (size g) (seedCell s) with
      | none =>
        rw [delineateSubbasin] at h
        simp only [hse, hv, hsnap, Bool.not_true, Bool.false_eq_true,
          if_false] at h
        exact absurd h (by simp)
      | some o =>
        rw [delineateSubbasin] at h
        simp only [hse, hv, hsnap, Bool.not_true, Bool.false_eq_true,
          if_false] at h
        cases h
        refine ⟨⟨maskOf g (fun p => drainsTo g (size g) p o), [o], []⟩,
          ?_, rfl, rfl, rfl, rfl⟩
        rw [delineateSubbasin]
        simp [hse, hv, hsnap]

/-- C8 witness: on the 10-cell chain with bounds covering only chain
cells 8–10, the subbasin call succeeds with the same Mask and outlet as
the unbounded call plus exactly one `IncompleteBasinWarning`, since the
Mask cell (0,6) lies outside the bounds. -/
theorem bounds_warning_nonfatal_witness :
    ∃ res0, delineateSubbasin chain10 (0, 9) 4 none = .ok res0 ∧
      (⟨[(0, 6), (0, 7), (0, 8), (0, 9)], [(0, 6)],
        [DelinWarning.incompleteBasinWarning]⟩ : DelinResult).mask =
        res0.mask ∧
      (⟨[(0, 6), (0, 7), (0, 8), (0, 9)], [(0, 6)],
        [DelinWarning.incompleteBasinWarning]⟩ : DelinResult).outlets =
        res0.outlets ∧
      res0.warnings = [] ∧
      (⟨[(0, 6), (0, 7), (0, 8), (0, 9)], [(0, 6)],
        [DelinWarning.incompleteBasinWarning]⟩ : DelinResult).warnings =
        (if (⟨[(0, 6), (0, 7), (0, 8), (0, 9)], [(0, 6)],
            [DelinWarning.incompleteBasinWarning]⟩ : DelinResult).mask.all
            (fun p => inBounds ((0, 7), (0, 9)) p) then []
          else [DelinWarning.incompleteBasinWarning]) :=
  bounds_warning_nonfatal chain10 (0, 9) 4 ((0, 7), (0, 9))
    ⟨[(0, 6), (0, 7), (0, 8), (0, 9)], [(0, 6)],
      [DelinWarning.incompleteBasinWarning]⟩ (by decide)

/-- C9: supplying a consistent `basin_index` (one whose bounding boxes
cover each basin together with its outlet) never changes the result of a
basin delineation — the index only narrows the traversal. -/
theorem index_does_not_change_result (g : FlowGrid) (idx : BasinIndex)
    (s : Seed) (hidx : validIndexB g idx = true) :
    delineateBasinWithIndex g idx s = delineateBasin g s := by
  cases hse : inExtent g s with
  | false => simp [delineateBasinWithIndex, delineateBasin, hse]
  | true =>
    cases hv : validFlowGrid g with
    | false => simp [delineateBasinWithIndex, delineateBasin, hse, hv]
    | true =>
      have hmask : maskOf g (fun p =>
          indexCandidate idx (seedCell s) p &&
            drainsTo g (size g) p (seedCell s)) =
          maskOf g (fun p => drainsTo g (size g) p (seedCell s)) := by
        apply List.filter_congr
        intro p hp
        cases hdt : drainsTo g (size g) p (seedCell s) with
        | false => simp
        | true =>
          have ho : seedCell s ∈ allCells g :=
            mem_allCells_iff_inGrid.mpr (seedCell_inGrid hse)
          rw [validIndexB, List.all_eq_true] at hidx
          have h1 := (List.all_eq_true.mp (hidx (seedCell s) ho)) p hp
          rw [hdt] at h1
          simp only [Bool.not_true, Bool.false_or] at h1
          simp [h1]
      rw [delineateBasinWithIndex, delineateBasin]
      simp only [hse, hv, Bool.not_true, Bool.false_eq_true, if_false]
      rw [hmask]

/-- C9 witness: on the 5×5 grid with a one-box index covering the whole
grid, the index is consistent and the indexed call returns exactly the
plain call's result. -/
theorem index_does_not_change_result_witness :
    validIndexB grid5 [((0, 0), (4, 4))] = true ∧
    delineateBasinWithIndex grid5 [((0, 0), (4, 4))] (2, 2) =
      delineateBasin grid5 (2, 2) :=
  ⟨by decide,
    index_does_not_change_result grid5 [((0, 0), (4, 4))] (2, 2) (by decide)⟩

/-- C10: the publish workflow is triggered exactly by a GitHub release
event of type created — no push, pull request, dispatch or scheduled
event triggers it — and its publish job runs `flit publish`, uploading
the package to PyPI. -/
theorem publish_only_on_release_created :
    (∀ e, publishWorkflowTriggers e = true ↔ e = GHEvent.release "created") ∧
    "flit publish" ∈ publishJobRunSteps := by
  constructor
  · intro e
    cases e <;>
      simp [publishWorkflowTriggers, publishOnReleaseTypes, List.contains]
  · simp [publishJobRunSteps]

end HydroMT
